import Mathlib

set_option maxRecDepth 40000

/-!
Verification of the HTTP server in src/httpServe.c.

The server is embedded shallowly: request buffers, paths and wire responses are
lists of characters (bytes); the per-connection OS interaction (filesystem state,
success of open/fstat/pipe/fork/execl, the child's output and exit status) is an
explicit environment record, and each handler is translated to the ordered list
of the writes it performs on the client socket.
-/

/-- BUFFER_SIZE from httpServe.c (line 28). -/
def BUFFER_SIZE : Nat := 4096

/-- MAX_PATH_LENGTH from httpServe.c (line 29). -/
def MAX_PATH_LENGTH : Nat := 256

/-- WWW_DIRECTORY from httpServe.c (line 30), as a character list. -/
def WWW_DIRECTORY : List Char := ("./www").toList

/-- The three-byte sequence "%20" that get_request_path decodes. -/
def pct20 : List Char := ['%', '2', '0']

/-- The four-byte marker "GET " that get_request_path searches for. -/
def getPat : List Char := ("GET ").toList

/-- The %20-decoding loop of get_request_path (httpServe.c lines 99-111).  The C
strncmp(src, "%20", 3) == 0 test is rendered as a take-3 comparison, and the fuel
argument is the loop variant (src strictly advances every iteration, and the C
loop runs at most once per character of the buffer). -/
def decodeAux : Nat → List Char → List Char
  | _, [] => []
  | 0, l => l
  | fuel + 1, c :: rest =>
    if (c :: rest).take 3 = pct20 then ' ' :: decodeAux fuel (rest.drop 2)
    else c :: decodeAux fuel rest

/-- The decoding pass of get_request_path applied to a whole (null-terminated) path. -/
def decodePath (l : List Char) : List Char := decodeAux l.length l

/-- Modelled from the spec's words for the RequestParser decode step: "every
literal %20 becomes a space; all other bytes pass through unchanged". -/
def specReplace20 : List Char → List Char
  | [] => []
  | [c] => [c]
  | [c, d] => [c, d]
  | c :: d :: e :: rest =>
    if c = '%' ∧ d = '2' ∧ e = '0' then ' ' :: specReplace20 rest
    else c :: specReplace20 (d :: e :: rest)

/-- strstr: the index of the first occurrence of pat in the haystack (none when
absent).  All patterns used by the source ("GET ", " ") are nonempty. -/
def substrIdx (pat : List Char) : List Char → Option Nat
  | [] => none
  | c :: rest =>
    if (c :: rest).take pat.length = pat then some 0
    else (substrIdx pat rest).map (fun i => i + 1)

/-- get_request_path from httpServe.c (lines 72-114): find the first "GET ",
take the text up to the next space (truncated to MAX_PATH_LENGTH - 1 bytes),
and decode %20 sequences; any failure falls back to "/". -/
def get_request_path (request : List Char) : List Char :=
  match substrIdx getPat request with
  | none => ['/']
  | some i =>
    match substrIdx [' '] (request.drop (i + 4)) with
    | none => ['/']
    | some j =>
      decodePath ((request.drop (i + 4)).take (min j (MAX_PATH_LENGTH - 1)))

/-- The test "this character is not a dot", used to find strrchr's last dot. -/
def notDot (c : Char) : Bool := c ≠ '.'

/-- get_file_extension from httpServe.c (lines 40-46): the suffix after the last
dot (strrchr), "" when there is no dot or the last dot is the first character
(the C dot == filename test). -/
def get_file_extension (filename : List Char) : List Char :=
  let ext := filename.reverse.takeWhile notDot
  if ext.length = filename.length then []
  else if ext.length = filename.length - 1 then []
  else ext.reverse

/-- get_content_type from httpServe.c (lines 49-69): a strcmp-based, hence
case-sensitive, extension table with an application/octet-stream fallback. -/
def get_content_type (extension : List Char) : List Char :=
  if extension = ("html").toList ∨ extension = ("htm").toList then ("text/html").toList
  else if extension = ("css").toList then ("text/css").toList
  else if extension = ("js").toList then ("application/javascript").toList
  else if extension = ("jpg").toList ∨ extension = ("jpeg").toList then ("image/jpeg").toList
  else if extension = ("png").toList then ("image/png").toList
  else if extension = ("gif").toList then ("image/gif").toList
  else if extension = ("txt").toList then ("text/plain").toList
  else if extension = ("php").toList then ("text/html").toList
  else ("application/octet-stream").toList

/-- The keys of the get_content_type table. -/
def contentTypeKeys : List (List Char) :=
  [("html").toList, ("htm").toList, ("css").toList, ("js").toList, ("jpg").toList,
   ("jpeg").toList, ("png").toList, ("gif").toList, ("txt").toList, ("php").toList]

/-- strcasecmp(a, b) == 0 (httpServe.c line 300): ASCII case-insensitive equality. -/
def strcasecmpEq (a b : List Char) : Bool := a.map Char.toLower == b.map Char.toLower

/-- POSIX path equivalence up to repeated slashes: stat("a//b") and stat("a/b")
name the same file.  The filesystem model compares paths modulo this, so that the
source's string concatenations are looked up the way the kernel resolves them. -/
def normSlashes : List Char → List Char
  | [] => []
  | [c] => [c]
  | a :: b :: rest =>
    if a = '/' ∧ b = '/' then normSlashes (b :: rest) else a :: normSlashes (b :: rest)

/-- The filesystem visible to one request: the regular files that exist, as
(path, content) pairs, looked up modulo repeated slashes.  The directories
containing these files exist as well; dirExists below accounts for them. -/
def lookupFile (fs : List (List Char × List Char)) (p : List Char) : Option (List Char) :=
  (fs.find? (fun e => normSlashes e.fst == normSlashes p)).map (fun e => e.snd)

/-- Drop trailing slashes: stat("dir/") succeeds exactly when dir is a directory. -/
def stripTrailingSlashes (p : List Char) : List Char :=
  (p.reverse.dropWhile (fun c => c = '/')).reverse

/-- p names a directory of the filesystem: some listed regular file lies beneath
it, i.e. p (slash-normalized, trailing slashes dropped) followed by '/' is a
prefix of that file's path.  These directories necessarily exist on any real
filesystem holding the listed files. -/
def dirExists (fs : List (List Char × List Char)) (p : List Char) : Bool :=
  fs.any (fun e =>
    (stripTrailingSlashes (normSlashes p) ++ ['/']).isPrefixOf (normSlashes e.fst))

/-- file_exists from httpServe.c (lines 34-37): stat succeeds on a listed
regular file and also on every directory a listed file lies beneath. -/
def file_exists (fs : List (List Char × List Char)) (p : List Char) : Bool :=
  (lookupFile fs p).isSome || dirExists fs p

/-- One connection's environment: the request bytes read from the socket (empty
models a failed or empty read), the filesystem, the success of each OS call the
handler can make (open/fstat in serve_file; pipe/fork/execl in serve_php), and
the child's stdout and exit status when execl succeeds.  openOk = false models
the check-to-open race on a file that stat just saw.  dirSize is the st_size
fstat reports when the opened path is a directory (Linux: open(O_RDONLY) on a
directory succeeds; the first read then fails with EISDIR). -/
structure Env where
  request : List Char
  fs : List (List Char × List Char)
  openOk : Bool
  fstatOk : Bool
  pipeOk : Bool
  forkOk : Bool
  execOk : Bool
  childOutput : List Char
  scriptExit : Nat
  dirSize : Nat

/-- The bytes written by send_not_found (httpServe.c lines 117-129). -/
def notFoundResponse : List Char :=
  ("HTTP/1.1 404 Not Found\r\nContent-Type: text/html\r\nConnection: close\r\n\r\n<html><body><h1>404 Not Found</h1><p>The requested resource could not be found on this server.</p></body></html>").toList

/-- The bytes written by send_server_error (httpServe.c lines 132-144). -/
def serverErrorResponse : List Char :=
  ("HTTP/1.1 500 Internal Server Error\r\nContent-Type: text/html\r\nConnection: close\r\n\r\n<html><body><h1>500 Internal Server Error</h1><p>The server encountered an error while processing your request.</p></body></html>").toList

/-- The header block serve_php writes before reading the pipe (httpServe.c lines 187-192). -/
def phpOkHeaders : List Char :=
  ("HTTP/1.1 200 OK\r\nContent-Type: text/html\r\nConnection: close\r\n\r\n").toList

/-- The snprintf format of serve_file's header block (httpServe.c lines 240-246),
with %ld printed in decimal. -/
def okFileHeaders (contentType : List Char) (size : Nat) : List Char :=
  ("HTTP/1.1 200 OK\r\nContent-Type: ").toList ++ contentType
    ++ ("\r\nContent-Length: ").toList ++ Nat.toDigits 10 size
    ++ ("\r\nConnection: close\r\n\r\n").toList

/-- One write on the client socket: either a header block (status line included)
or a chunk of body bytes copied by a read/write loop. -/
inductive WriteEvent where
  | headerBlock (bytes : List Char)
  | bodyChunk (bytes : List Char)
deriving DecidableEq

/-- The read/write copy loops of serve_file and serve_php move BUFFER_SIZE-sized
chunks (the final one shorter).  Fueled by the stream length. -/
def chunksAux : Nat → List Char → List (List Char)
  | _, [] => []
  | 0, l => [l]
  | fuel + 1, l => l.take BUFFER_SIZE :: chunksAux fuel (l.drop BUFFER_SIZE)

/-- The chunk sequence a copy loop produces for a byte stream. -/
def chunks (l : List Char) : List (List Char) := chunksAux l.length l

/-- serve_file from httpServe.c (lines 214-257) as its sequence of client writes:
open failure (nothing of that name, or it vanished since the stat) sends 404,
fstat failure sends 500, and otherwise the 200 header block with the fstat size
goes out followed by the body the read loop copies.  For a regular file that is
the file's bytes in chunks; for a directory (Linux: open(O_RDONLY) succeeds,
fstat succeeds with st_size = dirSize, and the first read fails with EISDIR,
ending the loop) the body is empty. -/
def serve_file (env : Env) (file_path : List Char) : List WriteEvent :=
  match lookupFile env.fs file_path with
  | some content =>
    if env.openOk = false then [WriteEvent.headerBlock notFoundResponse]
    else if env.fstatOk = false then [WriteEvent.headerBlock serverErrorResponse]
    else
      WriteEvent.headerBlock (okFileHeaders (get_content_type (get_file_extension file_path)) content.length)
        :: (chunks content).map WriteEvent.bodyChunk
  | none =>
    if dirExists env.fs file_path then
      if env.openOk = false then [WriteEvent.headerBlock notFoundResponse]
      else if env.fstatOk = false then [WriteEvent.headerBlock serverErrorResponse]
      else
        [WriteEvent.headerBlock (okFileHeaders (get_content_type (get_file_extension file_path)) env.dirSize)]
    else [WriteEvent.headerBlock notFoundResponse]

/-- The observable actions of serve_php (httpServe.c lines 147-211), in program
order, as seen by the parent process. -/
inductive PhpEvent where
  | sendHeaders (bytes : List Char)
  | sendBody (bytes : List Char)
  | closeWriteEnd
  | closeReadEnd
  | readChunk (bytes : List Char)
  | reapChild (status : Nat)
  | logNonZeroExit (status : Nat)
deriving DecidableEq

/-- The child's contribution to the pipe: execl failure means the child writes
nothing to its redirected stdout (perror goes to stderr) and exits 1. -/
def childOut (env : Env) : List Char := if env.execOk then env.childOutput else []

/-- The child's wait status: EXIT_FAILURE = 1 when execl failed. -/
def childExitStatus (env : Env) : Nat := if env.execOk then env.scriptExit else 1

/-- serve_php from httpServe.c (lines 147-211) as its action trace: pipe failure
sends a 500; fork failure closes both pipe ends and sends a 500; otherwise the
parent closes the write end, sends the 200 headers at once, copies the pipe to
the client until end-of-stream, closes the read end, reaps the child with
waitpid, and logs a nonzero exit status. -/
def serve_php_trace (env : Env) : List PhpEvent :=
  if env.pipeOk = false then [PhpEvent.sendHeaders serverErrorResponse]
  else if env.forkOk = false then
    [PhpEvent.closeReadEnd, PhpEvent.closeWriteEnd, PhpEvent.sendHeaders serverErrorResponse]
  else
    PhpEvent.closeWriteEnd
      :: PhpEvent.sendHeaders phpOkHeaders
      :: ((chunks (childOut env)).flatMap (fun c => [PhpEvent.readChunk c, PhpEvent.sendBody c])
          ++ ([PhpEvent.closeReadEnd, PhpEvent.reapChild (childExitStatus env)]
              ++ (if childExitStatus env = 0 then [] else [PhpEvent.logNonZeroExit (childExitStatus env)])))

/-- The client-socket writes among serve_php's actions. -/
def phpWriteEvent : PhpEvent → Option WriteEvent
  | PhpEvent.sendHeaders b => some (WriteEvent.headerBlock b)
  | PhpEvent.sendBody b => some (WriteEvent.bodyChunk b)
  | _ => none

/-- The bytes serve_php writes to the client. -/
def serve_php (env : Env) : List WriteEvent := (serve_php_trace env).filterMap phpWriteEvent

/-- handle_client from httpServe.c (lines 259-311): an empty/failed read closes
silently; otherwise parse the path, build "./www" + path (snprintf truncates to
MAX_PATH_LENGTH - 1 characters), and dispatch: a path ending in '/' tries
index.html then index.php, and any other path is served statically or as a PHP
script according to a case-insensitive extension test, with 404 when absent. -/
def handle_client (env : Env) : List WriteEvent :=
  if env.request = [] then []
  else
    let request_path := get_request_path env.request
    let file_path := (WWW_DIRECTORY ++ request_path).take (MAX_PATH_LENGTH - 1)
    if request_path.getLast? = some '/' then
      let index_html_path := (file_path ++ ("/index.html").toList).take (MAX_PATH_LENGTH - 1)
      let index_php_path := (file_path ++ ("/index.php").toList).take (MAX_PATH_LENGTH - 1)
      if file_exists env.fs index_html_path then serve_file env index_html_path
      else if file_exists env.fs index_php_path then serve_php env
      else [WriteEvent.headerBlock notFoundResponse]
    else
      if file_exists env.fs file_path then
        if strcasecmpEq (get_file_extension file_path) (("php").toList) then serve_php env
        else serve_file env file_path
      else [WriteEvent.headerBlock notFoundResponse]

/-- Modelled from claim C2's words: the first line of a raw request buffer. -/
def firstLine (l : List Char) : List Char :=
  l.takeWhile (fun c => c ≠ '\r' ∧ c ≠ '\n')

/-- Modelled from claim C2's words: the method of the first line. -/
def methodOf (l : List Char) : List Char :=
  (firstLine l).takeWhile (fun c => c ≠ ' ')

/-- The status lines the server can emit. -/
def statusLine200 : List Char := ("HTTP/1.1 200 OK\r\n").toList

def statusLine404 : List Char := ("HTTP/1.1 404 Not Found\r\n").toList

def statusLine500 : List Char := ("HTTP/1.1 500 Internal Server Error\r\n").toList

/-- The Connection: close header line. -/
def connectionCloseHdr : List Char := ("Connection: close\r\n").toList

/-- A well-formed wire response: exactly one header block, written first, whose
status line is 200, 404 or 500 and which carries Connection: close; everything
after it is body bytes. -/
def wellFormedResponse (evs : List WriteEvent) : Prop :=
  ∃ h rest, evs = WriteEvent.headerBlock h :: rest
    ∧ (∀ e ∈ rest, ∃ b, e = WriteEvent.bodyChunk b)
    ∧ (statusLine200 <+: h ∨ statusLine404 <+: h ∨ statusLine500 <+: h)
    ∧ connectionCloseHdr <:+: h

/-- The body bytes of a response (the chunks written after the headers, joined). -/
def bodyBytes (evs : List WriteEvent) : List Char :=
  (evs.filterMap (fun e => match e with | WriteEvent.bodyChunk b => some b | _ => none)).flatten

/-- A GET request for /info.php, the script present, pipe and fork fine but the
interpreter missing (execl fails in the child): claim C1's scenario. -/
def c1cexEnv : Env :=
  ⟨("GET /info.php HTTP/1.1").toList, [(("./www/info.php").toList, ("x").toList)],
   true, true, true, true, false, [], 0, 4096⟩

/-- The same scenario again, used to instantiate the amended C1 theorem. -/
def c1wEnv : Env :=
  ⟨("GET /info.php HTTP/1.1").toList, [(("./www/info.php").toList, ("x").toList)],
   true, true, true, true, false, [], 0, 4096⟩

/-- A request path of length 255 ending in '/': the snprintf truncation to
MAX_PATH_LENGTH - 1 bytes cuts the 253-character directory name itself down to
249 characters, so the truncated path names nothing on the filesystem — neither
the listed index.html nor any directory above it. -/
def c5cexPath : List Char := '/' :: (List.replicate 253 'a' ++ ['/'])

/-- A filesystem containing exactly the index.html the claim predicts is checked. -/
def c5cexFs : List (List Char × List Char) :=
  [(WWW_DIRECTORY ++ c5cexPath ++ ("index.html").toList, ("x").toList)]

/-- The C5 counterexample connection: directory-style request for c5cexPath. -/
def c5cexEnv : Env :=
  ⟨("GET ").toList ++ c5cexPath ++ (' ' :: ("HTTP/1.1").toList), c5cexFs,
   true, true, true, true, true, [], 0, 4096⟩

/-- A short directory-style request whose index.html exists. -/
def c5wEnv : Env :=
  ⟨("GET /dir/ HTTP/1.1").toList, [(("./www/dir/index.html").toList, ("x").toList)],
   true, true, true, true, true, [], 0, 4096⟩

/-- A connection serving the two-byte static file ./www/a.txt. -/
def c6wEnv : Env :=
  ⟨("GET /a.txt HTTP/1.1").toList, [(("./www/a.txt").toList, ("hi").toList)],
   true, true, true, true, true, [], 0, 4096⟩

/-- A request path of length 255 ending in ".PHP": snprintf truncation cuts the
extension off the filesystem path the server actually checks. -/
def c8cexPath : List Char := ('/' :: List.replicate 250 'a') ++ (".PHP").toList

/-- The file the claim says exists: document root + the full request path. -/
def c8cexFs : List (List Char × List Char) :=
  [(WWW_DIRECTORY ++ c8cexPath, ("x").toList)]

/-- The C8 counterexample connection. -/
def c8cexEnv : Env :=
  ⟨("GET ").toList ++ c8cexPath ++ (' ' :: ("HTTP/1.1").toList), c8cexFs,
   true, true, true, true, true, [], 0, 4096⟩

/-- A mixed-case .PHP request whose file exists. -/
def c8wEnv : Env :=
  ⟨("GET /page.PHP HTTP/1.1").toList, [(("./www/page.PHP").toList, ("x").toList)],
   true, true, true, true, true, ("<h1>ok</h1>").toList, 0, 4096⟩

/-- A successful script run: pipe, fork and execl all succeed, output "hello". -/
def c9wEnv : Env :=
  ⟨("GET /info.php HTTP/1.1").toList, [(("./www/info.php").toList, ("x").toList)],
   true, true, true, true, true, ("hello").toList, 0, 4096⟩

/-- A static file whose extension HTML matches the table only up to case. -/
def c10wEnv : Env :=
  ⟨("GET /a.HTML HTTP/1.1").toList, [(("./www/a.HTML").toList, ("<p>x</p>").toList)],
   true, true, true, true, true, [], 0, 4096⟩

/-- An ordinary static request, used to instantiate the C4 invariant. -/
def c4wEnv : Env :=
  ⟨("GET /index.html HTTP/1.1").toList, [(("./www/index.html").toList, ("<p>x</p>").toList)],
   true, true, true, true, true, [], 0, 4096⟩

/-! ## Basic equations for the fueled definitions -/

theorem decodeAux_nil (fuel : Nat) : decodeAux fuel [] = [] := by
  cases fuel <;> rfl

theorem decodeAux_succ (fuel : Nat) (c : Char) (rest : List Char) :
    decodeAux (fuel + 1) (c :: rest) =
      if (c :: rest).take 3 = pct20 then ' ' :: decodeAux fuel (rest.drop 2)
      else c :: decodeAux fuel rest := rfl

theorem specReplace20_cons3 (c d e : Char) (r : List Char) :
    specReplace20 (c :: d :: e :: r) =
      if c = '%' ∧ d = '2' ∧ e = '0' then ' ' :: specReplace20 r
      else c :: specReplace20 (d :: e :: r) := rfl

theorem normSlashes_cons2 (a b : Char) (r : List Char) :
    normSlashes (a :: b :: r) =
      if a = '/' ∧ b = '/' then normSlashes (b :: r) else a :: normSlashes (b :: r) := rfl

/-! ## The decoding pass agrees with the spec-level %20 replacement -/

theorem decodeAux_eq_spec (fuel : Nat) :
    ∀ l : List Char, l.length ≤ fuel → decodeAux fuel l = specReplace20 l := by
  induction fuel with
  | zero =>
    intro l hl
    have h : l = [] := List.length_eq_zero.mp (Nat.le_zero.mp hl)
    subst h; rfl
  | succ n ih =>
    intro l hl
    match l with
    | [] => rw [decodeAux_nil]; rfl
    | [c] =>
      rw [decodeAux_succ, decodeAux_nil]
      have hc : ¬ ([c].take 3 = pct20) := by simp [pct20]
      rw [if_neg hc]; rfl
    | [c, d] =>
      rw [decodeAux_succ]
      have hc : ¬ ([c, d].take 3 = pct20) := by simp [pct20]
      rw [if_neg hc, ih [d] (by simp at hl ⊢; omega)]
      rfl
    | c :: d :: e :: r =>
      rw [decodeAux_succ, specReplace20_cons3]
      have htake : (c :: d :: e :: r).take 3 = [c, d, e] := rfl
      have hlen : r.length + 3 ≤ n + 1 := by simpa using hl
      by_cases h : c = '%' ∧ d = '2' ∧ e = '0'
      · obtain ⟨h1, h2, h3⟩ := h
        subst h1; subst h2; subst h3
        rw [if_pos (by rfl), if_pos ⟨rfl, rfl, rfl⟩]
        rw [show List.drop 2 ('2' :: '0' :: r) = r from rfl, ih r (by omega)]
      · have hne : ¬ ((c :: d :: e :: r).take 3 = pct20) := by
          rw [htake]; simp [pct20]; intro h1 h2 h3; exact h ⟨h1, h2, h3⟩
        rw [if_neg hne, if_neg h, ih (d :: e :: r) (by simp; omega)]

theorem decodePath_eq_spec (l : List Char) : decodePath l = specReplace20 l :=
  decodeAux_eq_spec l.length l (Nat.le_refl _)

/-! ## Structural facts about the %20 replacement -/

theorem specReplace20_length_le (l : List Char) : (specReplace20 l).length ≤ l.length := by
  induction l using specReplace20.induct with
  | case1 => simp [specReplace20]
  | case2 c => simp [specReplace20]
  | case3 c d => simp [specReplace20]
  | case4 c d e r h ih =>
    obtain ⟨h1, h2, h3⟩ := h
    subst h1; subst h2; subst h3
    rw [specReplace20_cons3, if_pos ⟨rfl, rfl, rfl⟩]
    simp; omega
  | case5 c d e r h ih =>
    rw [specReplace20_cons3, if_neg h]
    simp at ih ⊢; omega

theorem specReplace20_head? (l : List Char) (a : Char)
    (h : (specReplace20 l).head? = some a) : a = ' ' ∨ l.head? = some a := by
  match l with
  | [] => simp [specReplace20] at h
  | [c] => simp [specReplace20] at h; exact Or.inr (by simp [h])
  | [c, d] => simp [specReplace20] at h; exact Or.inr (by simp [h])
  | c :: d :: e :: r =>
    rw [specReplace20_cons3] at h
    by_cases hc : c = '%' ∧ d = '2' ∧ e = '0'
    · rw [if_pos hc] at h; simp at h; exact Or.inl h.symm
    · rw [if_neg hc] at h; simp at h; exact Or.inr (by simp [h])

theorem specReplace20_head_slash (l : List Char) (h : l.head? = some '/') :
    (specReplace20 l).head? = some '/' := by
  match l with
  | [] => simp at h
  | [c] => simp at h; subst h; rfl
  | [c, d] => simp at h; subst h; rfl
  | c :: d :: e :: r =>
    simp at h; subst h
    rw [specReplace20_cons3, if_neg (by rintro ⟨h1, -, -⟩; exact absurd h1 (by decide))]
    rfl

theorem specReplace20_not_infix (l : List Char) : ¬ pct20 <:+: specReplace20 l := by
  induction l using specReplace20.induct with
  | case1 =>
    rintro ⟨s, t, h⟩
    simp [specReplace20, pct20] at h
  | case2 c =>
    rintro ⟨s, t, h⟩
    apply_fun List.length at h
    simp [specReplace20, pct20] at h
    omega
  | case3 c d =>
    rintro ⟨s, t, h⟩
    apply_fun List.length at h
    simp [specReplace20, pct20] at h
    omega
  | case4 c d e r h ih =>
    obtain ⟨h1, h2, h3⟩ := h
    subst h1; subst h2; subst h3
    rw [specReplace20_cons3, if_pos ⟨rfl, rfl, rfl⟩]
    rintro ⟨s, t, hst⟩
    match s with
    | [] =>
      simp [pct20] at hst
    | a :: s' =>
      simp at hst
      exact ih ⟨s', t, by rw [List.append_assoc]; exact hst.2⟩
  | case5 c d e r h ih =>
    rw [specReplace20_cons3, if_neg h]
    rintro ⟨s, t, hst⟩
    match s with
    | a :: s' =>
      simp at hst
      exact ih ⟨s', t, by rw [List.append_assoc]; exact hst.2⟩
    | [] =>
      simp [pct20] at hst
      obtain ⟨hc, hrest⟩ := hst
      have hd : d = '2' := by
        have hh := specReplace20_head? (d :: e :: r) '2' (by rw [← hrest]; rfl)
        rcases hh with h' | h'
        · exact absurd h' (by decide)
        · simpa using h'
      subst hd
      match r with
      | [] =>
        simp [specReplace20] at hrest
        exact h ⟨hc.symm, rfl, hrest.1.symm⟩
      | f :: r' =>
        rw [specReplace20_cons3, if_neg (by rintro ⟨h1, -, -⟩; exact absurd h1 (by decide))] at hrest
        simp at hrest
        have he : e = '0' := by
          have hh := specReplace20_head? (e :: f :: r') '0' (by rw [← hrest]; rfl)
          rcases hh with h' | h'
          · exact absurd h' (by decide)
          · simpa using h'
        exact h ⟨hc.symm, rfl, he⟩

theorem specReplace20_id_of_not_infix (l : List Char) (h : ¬ pct20 <:+: l) :
    specReplace20 l = l := by
  induction l using specReplace20.induct with
  | case1 => rfl
  | case2 c => rfl
  | case3 c d => rfl
  | case4 c d e r hc ih =>
    obtain ⟨h1, h2, h3⟩ := hc
    subst h1; subst h2; subst h3
    exact absurd ⟨[], r, rfl⟩ h
  | case5 c d e r hc ih =>
    rw [specReplace20_cons3, if_neg hc]
    rw [ih (fun hin => h (by obtain ⟨s, t, ht⟩ := hin; exact ⟨c :: s, t, by simp only [List.cons_append, List.append_assoc] at ht ⊢; rw [ht]⟩))]

/-! ## Facts about the strstr model -/

theorem substrIdx_take (pat : List Char) :
    ∀ (l : List Char) (i : Nat), substrIdx pat l = some i →
      (l.drop i).take pat.length = pat := by
  intro l
  induction l with
  | nil => intro i h; simp [substrIdx] at h
  | cons c rest ih =>
    intro i h
    rw [substrIdx] at h
    by_cases hc : (c :: rest).take pat.length = pat
    · rw [if_pos hc] at h
      simp at h
      subst h
      simpa using hc
    · rw [if_neg hc] at h
      simp at h
      obtain ⟨i', hi', rfl⟩ := h
      simpa using ih i' hi'

theorem substrIdx_append_self (pat r : List Char) (h : pat ≠ []) :
    substrIdx pat (pat ++ r) = some 0 := by
  match pat with
  | [] => exact absurd rfl h
  | p :: ps =>
    rw [show (p :: ps) ++ r = p :: (ps ++ r) from rfl, substrIdx]
    rw [if_pos ?_]
    rw [show p :: (ps ++ r) = (p :: ps) ++ r from rfl]
    exact List.take_left _ _

theorem substrIdx_single_append (b : Char) (r : List Char) :
    ∀ t : List Char, (∀ c ∈ t, c ≠ b) → substrIdx [b] (t ++ b :: r) = some t.length := by
  intro t
  induction t with
  | nil =>
    intro _
    rw [show ([] : List Char) ++ b :: r = b :: r from rfl, substrIdx]
    simp
  | cons a t' ih =>
    intro hmem
    rw [show (a :: t') ++ b :: r = a :: (t' ++ b :: r) from rfl, substrIdx]
    have hne : ¬ ((a :: (t' ++ b :: r)).take ([b] : List Char).length = [b]) := by
      simp
      exact fun hab => absurd hab (hmem a (by simp))
    rw [if_neg hne, ih (fun c hc => hmem c (by simp [hc]))]
    simp

/-! ## C2 -/

/-- C2 (corrected): get_request_path falls back to "/" exactly when the buffer
contains no occurrence of "GET " at all, or no space follows the first "GET ".
The original claim quantified over the first line of the buffer; strstr searches
the whole buffer, so a non-GET first line does not imply the fallback. -/
theorem c2_amended (buf : List Char)
    (h : substrIdx getPat buf = none
      ∨ ∃ i, substrIdx getPat buf = some i
          ∧ substrIdx [' '] (buf.drop (i + 4)) = none) :
    get_request_path buf = ['/'] := by
  unfold get_request_path
  rcases h with h | ⟨i, h1, h2⟩
  · simp [h]
  · simp [h1, h2]

/-- C2 witness: a POST request contains no "GET " and parses to "/". -/
theorem c2_witness : get_request_path (("POST /x HTTP/1.1").toList) = ['/'] :=
  c2_amended (("POST /x HTTP/1.1").toList) (Or.inl (by decide))

/-- C2 counterexample: the buffer "X GET /evil x" has a non-GET method on its
first (and only) line, yet get_request_path returns "/evil", not "/": strstr
finds "GET " in the middle of the line. -/
theorem c2_counterexample :
    methodOf (("X GET /evil x").toList) ≠ ("GET").toList
    ∧ get_request_path (("X GET /evil x").toList) = ("/evil").toList
    ∧ get_request_path (("X GET /evil x").toList) ≠ ['/'] := by
  refine ⟨by decide, by decide, by decide⟩

/-! ## C3 -/

/-- C3 (corrected): for every raw buffer the parsed path contains no raw "%20"
and is at most MAX_PATH_LENGTH - 1 characters long; it begins with '/' when the
fallback was taken or when the first byte after the first "GET " is '/', but an
arbitrary target (e.g. "GET abc ") is returned verbatim, so the unconditional
leading-slash part of the original claim fails. -/
theorem c3_amended (buf : List Char) :
    ¬ pct20 <:+: get_request_path buf
    ∧ (get_request_path buf).length ≤ MAX_PATH_LENGTH - 1
    ∧ (substrIdx getPat buf = none → get_request_path buf = ['/'])
    ∧ (∀ i, substrIdx getPat buf = some i →
        (buf.drop (i + 4)).head? = some '/' →
        (get_request_path buf).head? = some '/') := by
  rcases hG : substrIdx getPat buf with _ | i
  · have hr : get_request_path buf = ['/'] := by
      unfold get_request_path
      simp [hG]
    rw [hr]
    refine ⟨by decide, by decide, fun _ => rfl, fun i hi _ => by simp at hi⟩
  · rcases hS : substrIdx [' '] (buf.drop (i + 4)) with _ | j
    · have hr : get_request_path buf = ['/'] := by
        unfold get_request_path
        simp [hG, hS]
      rw [hr]
      refine ⟨by decide, by decide, fun _ => rfl, fun i' hi' hh => rfl⟩
    · have hr : get_request_path buf
          = decodePath ((buf.drop (i + 4)).take (min j (MAX_PATH_LENGTH - 1))) := by
        unfold get_request_path
        simp [hG, hS]
      rw [hr]
      refine ⟨?_, ?_, fun h => by simp at h, fun i' hi' hh => ?_⟩
      · rw [decodePath_eq_spec]
        exact specReplace20_not_infix _
      · rw [decodePath_eq_spec]
        have h1 := specReplace20_length_le ((buf.drop (i + 4)).take (min j (MAX_PATH_LENGTH - 1)))
        have h2 := List.length_take_le (min j (MAX_PATH_LENGTH - 1)) (buf.drop (i + 4))
        have h3 : min j (MAX_PATH_LENGTH - 1) ≤ MAX_PATH_LENGTH - 1 := Nat.min_le_right _ _
        omega
      · have hii : i' = i := by
          injection hi' with hinj
          exact hinj.symm
        subst hii
        have hj1 : 1 ≤ j := by
          rcases Nat.eq_zero_or_pos j with hj0 | hj0
          · subst hj0
            have := substrIdx_take [' '] (buf.drop (i' + 4)) 0 hS
            simp at this
            rcases hbd : buf.drop (i' + 4) with _ | ⟨x, xs⟩
            · rw [hbd] at this; simp at this
            · rw [hbd] at this hh
              simp at this hh
              rw [this] at hh
              exact absurd hh (by decide)
          · exact hj0
        rw [decodePath_eq_spec]
        apply specReplace20_head_slash
        rcases hbd : buf.drop (i' + 4) with _ | ⟨x, xs⟩
        · rw [hbd] at hh; simp at hh
        · rw [hbd] at hh
          simp at hh
          subst hh
          have hmin : 1 ≤ min j (MAX_PATH_LENGTH - 1) := by
            have : (1 : Nat) ≤ MAX_PATH_LENGTH - 1 := by decide
            omega
          obtain ⟨m, hm⟩ : ∃ m, min j (MAX_PATH_LENGTH - 1) = m + 1 :=
            ⟨min j (MAX_PATH_LENGTH - 1) - 1, by omega⟩
          rw [hm]
          rfl

/-- C3 witness: on a well-formed GET line the invariant holds, leading slash included. -/
theorem c3_witness :
    ¬ pct20 <:+: get_request_path (("GET /x%20y HTTP/1.1").toList)
    ∧ (get_request_path (("GET /x%20y HTTP/1.1").toList)).length ≤ MAX_PATH_LENGTH - 1
    ∧ (get_request_path (("GET /x%20y HTTP/1.1").toList)).head? = some '/' :=
  ⟨(c3_amended (("GET /x%20y HTTP/1.1").toList)).1,
   (c3_amended (("GET /x%20y HTTP/1.1").toList)).2.1,
   (c3_amended (("GET /x%20y HTTP/1.1").toList)).2.2.2 0 (by decide) (by decide)⟩

/-- C3 counterexample: the buffer "GET abc x" yields the path "abc", which does
not begin with '/', refuting the unconditional leading-slash invariant. -/
theorem c3_counterexample :
    get_request_path (("GET abc x").toList) = ("abc").toList
    ∧ (get_request_path (("GET abc x").toList)).head? ≠ some '/' := by
  refine ⟨by decide, by decide⟩

/-! ## C7 -/

/-- C7 (confirmed): for a request line "GET <t> HTTP/1.1" whose target t fits in
the path buffer, the parser returns exactly the spec-level replacement of every
"%20" by a space; the decoding pass coincides with that replacement on all
inputs, and an input without "%20" passes through unchanged (no other
percent-escape is decoded). -/
theorem c7_decode (t r : List Char) (hsp : ' ' ∉ t) (hlen : t.length ≤ MAX_PATH_LENGTH - 1) :
    get_request_path ((getPat ++ t) ++ ' ' :: r) = specReplace20 t
    ∧ (∀ l : List Char, decodePath l = specReplace20 l)
    ∧ (∀ l : List Char, ¬ pct20 <:+: l → decodePath l = l) := by
  refine ⟨?_, decodePath_eq_spec, fun l h => by
    rw [decodePath_eq_spec]; exact specReplace20_id_of_not_infix l h⟩
  unfold get_request_path
  have h0 : substrIdx getPat ((getPat ++ t) ++ ' ' :: r) = some 0 := by
    rw [List.append_assoc]
    exact substrIdx_append_self _ _ (by decide)
  simp only [h0]
  have hdrop : ((getPat ++ t) ++ ' ' :: r).drop (0 + 4) = t ++ ' ' :: r := by
    rw [List.append_assoc]
    have h4 : getPat.length = 4 := by decide
    rw [show 0 + 4 = getPat.length from by rw [h4]]
    exact List.drop_left _ _
  rw [hdrop]
  have hidx : substrIdx [' '] (t ++ ' ' :: r) = some t.length :=
    substrIdx_single_append ' ' r t (fun c hc hcb => hsp (hcb ▸ hc))
  simp only [hidx]
  have hmin : min t.length (MAX_PATH_LENGTH - 1) = t.length := Nat.min_eq_left hlen
  rw [hmin, List.take_left, decodePath_eq_spec]

/-- C7 witness: a concrete target with one %20 and one %41; the %20 becomes a
space and the %41 is untouched. -/
theorem c7_witness :
    get_request_path ((getPat ++ ("/a%20b%41c").toList) ++ ' ' :: ("HTTP/1.1").toList)
      = specReplace20 (("/a%20b%41c").toList)
    ∧ specReplace20 (("/a%20b%41c").toList) = ("/a b%41c").toList :=
  ⟨(c7_decode (("/a%20b%41c").toList) (("HTTP/1.1").toList) (by decide) (by decide)).1,
   by decide⟩

/-! ## The copy loops reassemble exactly the stream -/

theorem chunksAux_flatten :
    ∀ (fuel : Nat) (l : List Char), l.length ≤ fuel → (chunksAux fuel l).flatten = l := by
  intro fuel
  induction fuel with
  | zero =>
    intro l hl
    have h : l = [] := List.length_eq_zero.mp (Nat.le_zero.mp hl)
    subst h; rfl
  | succ n ih =>
    intro l hl
    match l with
    | [] => rfl
    | c :: rest =>
      rw [show chunksAux (n + 1) (c :: rest)
            = (c :: rest).take BUFFER_SIZE :: chunksAux n ((c :: rest).drop BUFFER_SIZE) from rfl]
      rw [List.flatten_cons, ih _ (by simp [BUFFER_SIZE] at hl ⊢; omega)]
      exact List.take_append_drop _ _

theorem chunks_flatten (l : List Char) : (chunks l).flatten = l :=
  chunksAux_flatten l.length l (Nat.le_refl _)

/-! ## Shapes of the serve_file and serve_php responses -/

theorem serve_file_eq (env : Env) (p content : List Char)
    (hfile : lookupFile env.fs p = some content)
    (ho : env.openOk = true) (hs : env.fstatOk = true) :
    serve_file env p
      = WriteEvent.headerBlock
          (okFileHeaders (get_content_type (get_file_extension p)) content.length)
        :: (chunks content).map WriteEvent.bodyChunk := by
  unfold serve_file
  simp [hfile, ho, hs]

theorem filterMap_php_pairs (cs : List (List Char)) :
    ((cs.flatMap (fun c => [PhpEvent.readChunk c, PhpEvent.sendBody c])).filterMap phpWriteEvent)
      = cs.map WriteEvent.bodyChunk := by
  induction cs with
  | nil => rfl
  | cons c cs ih => simp [List.flatMap_cons, List.filterMap_append, phpWriteEvent, ih]

theorem serve_php_eq_500 (env : Env) (h : env.pipeOk = false ∨ env.forkOk = false) :
    serve_php env = [WriteEvent.headerBlock serverErrorResponse] := by
  rcases h with h | h
  · simp [serve_php, serve_php_trace, h, phpWriteEvent]
  · by_cases hp : env.pipeOk = false
    · simp [serve_php, serve_php_trace, hp, phpWriteEvent]
    · have hp' : env.pipeOk = true := by revert hp; cases env.pipeOk <;> simp
      simp [serve_php, serve_php_trace, hp', h, phpWriteEvent]

theorem serve_php_eq_success (env : Env) (hp : env.pipeOk = true) (hf : env.forkOk = true) :
    serve_php env
      = WriteEvent.headerBlock phpOkHeaders :: (chunks (childOut env)).map WriteEvent.bodyChunk := by
  by_cases hz : childExitStatus env = 0 <;>
    simp [serve_php, serve_php_trace, hp, hf, hz, phpWriteEvent, List.filterMap_append,
      filterMap_php_pairs]

/-! ## Body bytes of a header-then-chunks response -/

theorem filterMap_body_map (cs : List (List Char)) :
    (cs.map WriteEvent.bodyChunk).filterMap
      (fun e => match e with | WriteEvent.bodyChunk b => some b | _ => none) = cs := by
  induction cs with
  | nil => rfl
  | cons c cs ih => simp [ih]

theorem bodyBytes_header_body (h : List Char) (cs : List (List Char)) :
    bodyBytes (WriteEvent.headerBlock h :: cs.map WriteEvent.bodyChunk) = cs.flatten := by
  unfold bodyBytes
  rw [show (WriteEvent.headerBlock h :: cs.map WriteEvent.bodyChunk).filterMap
        (fun e => match e with | WriteEvent.bodyChunk b => some b | _ => none)
      = (cs.map WriteEvent.bodyChunk).filterMap
        (fun e => match e with | WriteEvent.bodyChunk b => some b | _ => none) from rfl]
  rw [filterMap_body_map]

/-! ## Header block facts -/

theorem statusLine200_prefix_okFileHeaders (ct : List Char) (n : Nat) :
    statusLine200 <+: okFileHeaders ct n := by
  have h1 : statusLine200 <+: ("HTTP/1.1 200 OK\r\nContent-Type: ").toList := by decide
  have h2 : ("HTTP/1.1 200 OK\r\nContent-Type: ").toList <+: okFileHeaders ct n := by
    unfold okFileHeaders
    simp only [List.append_assoc]
    exact List.prefix_append _ _
  exact h1.trans h2

theorem connClose_infix_okFileHeaders (ct : List Char) (n : Nat) :
    connectionCloseHdr <:+: okFileHeaders ct n := by
  refine ⟨("HTTP/1.1 200 OK\r\nContent-Type: ").toList ++ ct ++ ("\r\nContent-Length: ").toList
      ++ Nat.toDigits 10 n ++ ("\r\n").toList, ("\r\n").toList, ?_⟩
  have hC : ("\r\nConnection: close\r\n\r\n").toList
      = ("\r\n").toList ++ connectionCloseHdr ++ ("\r\n").toList := by decide
  unfold okFileHeaders
  rw [hC]
  simp [List.append_assoc]

theorem contentLength_infix_okFileHeaders (ct : List Char) (n : Nat) :
    (("Content-Length: ").toList ++ Nat.toDigits 10 n ++ ("\r\n").toList)
      <:+: okFileHeaders ct n := by
  refine ⟨("HTTP/1.1 200 OK\r\nContent-Type: ").toList ++ ct ++ ("\r\n").toList,
      ("Connection: close\r\n\r\n").toList, ?_⟩
  have hB : ("\r\nContent-Length: ").toList
      = ("\r\n").toList ++ ("Content-Length: ").toList := by decide
  have hC : ("\r\nConnection: close\r\n\r\n").toList
      = ("\r\n").toList ++ ("Connection: close\r\n\r\n").toList := by decide
  unfold okFileHeaders
  rw [hB, hC]
  simp [List.append_assoc]

/-! ## Every branch emits one well-formed response -/

theorem wellFormed_notFound : wellFormedResponse [WriteEvent.headerBlock notFoundResponse] :=
  ⟨notFoundResponse, [], rfl, by simp, Or.inr (Or.inl (by decide)), by decide⟩

theorem wellFormed_serverError : wellFormedResponse [WriteEvent.headerBlock serverErrorResponse] :=
  ⟨serverErrorResponse, [], rfl, by simp, Or.inr (Or.inr (by decide)), by decide⟩

theorem wellFormed_serve_file (env : Env) (p : List Char) :
    wellFormedResponse (serve_file env p) := by
  rcases hf : lookupFile env.fs p with _ | content
  · by_cases hd : dirExists env.fs p = true
    · by_cases ho : env.openOk = false
      · have h : serve_file env p = [WriteEvent.headerBlock notFoundResponse] := by
          simp [serve_file, hf, hd, ho]
        rw [h]
        exact wellFormed_notFound
      · by_cases hs : env.fstatOk = false
        · have h : serve_file env p = [WriteEvent.headerBlock serverErrorResponse] := by
            simp [serve_file, hf, hd, ho, hs]
          rw [h]
          exact wellFormed_serverError
        · have h : serve_file env p
              = [WriteEvent.headerBlock
                  (okFileHeaders (get_content_type (get_file_extension p)) env.dirSize)] := by
            simp [serve_file, hf, hd, ho, hs]
          rw [h]
          exact ⟨_, [], rfl, by simp, Or.inl (statusLine200_prefix_okFileHeaders _ _),
            connClose_infix_okFileHeaders _ _⟩
    · have h : serve_file env p = [WriteEvent.headerBlock notFoundResponse] := by
        simp [serve_file, hf, hd]
      rw [h]
      exact wellFormed_notFound
  · by_cases ho : env.openOk = false
    · have h : serve_file env p = [WriteEvent.headerBlock notFoundResponse] := by
        simp [serve_file, hf, ho]
      rw [h]
      exact wellFormed_notFound
    · have ho' : env.openOk = true := by revert ho; cases env.openOk <;> simp
      by_cases hs : env.fstatOk = false
      · have h : serve_file env p = [WriteEvent.headerBlock serverErrorResponse] := by
          simp [serve_file, hf, ho, hs]
        rw [h]
        exact wellFormed_serverError
      · have hs' : env.fstatOk = true := by revert hs; cases env.fstatOk <;> simp
        rw [serve_file_eq env p content hf ho' hs']
        refine ⟨_, _, rfl, ?_, Or.inl (statusLine200_prefix_okFileHeaders _ _),
          connClose_infix_okFileHeaders _ _⟩
        intro e he
        simp [List.mem_map] at he
        obtain ⟨b, -, hbe⟩ := he
        exact ⟨b, hbe.symm⟩

theorem wellFormed_serve_php (env : Env) : wellFormedResponse (serve_php env) := by
  by_cases hp : env.pipeOk = true
  · by_cases hfk : env.forkOk = true
    · rw [serve_php_eq_success env hp hfk]
      refine ⟨phpOkHeaders, _, rfl, ?_, Or.inl (by decide), by decide⟩
      intro e he
      simp [List.mem_map] at he
      obtain ⟨b, -, hbe⟩ := he
      exact ⟨b, hbe.symm⟩
    · have hfk' : env.forkOk = false := by revert hfk; cases env.forkOk <;> simp
      rw [serve_php_eq_500 env (Or.inr hfk')]
      exact wellFormed_serverError
  · have hp' : env.pipeOk = false := by revert hp; cases env.pipeOk <;> simp
    rw [serve_php_eq_500 env (Or.inl hp')]
    exact wellFormed_serverError

/-! ## C4 -/

/-- C4 (confirmed): on every connection the server either writes nothing (empty
or failed read) or writes exactly one header block first — its status line one of
200 OK, 404 Not Found, 500 Internal Server Error, and carrying
Connection: close — followed only by body bytes. -/
theorem c4_response_invariant (env : Env) :
    handle_client env = [] ∨ wellFormedResponse (handle_client env) := by
  by_cases hr : env.request = []
  · simp [handle_client, hr]
  · right
    simp only [handle_client, if_neg hr]
    split
    · split
      · exact wellFormed_serve_file _ _
      · split
        · exact wellFormed_serve_php _
        · exact wellFormed_notFound
    · split
      · split
        · exact wellFormed_serve_php _
        · exact wellFormed_serve_file _ _
      · exact wellFormed_notFound

/-- C4 witness: the invariant instantiated at a concrete static-file request. -/
theorem c4_witness :
    handle_client c4wEnv = [] ∨ wellFormedResponse (handle_client c4wEnv) :=
  c4_response_invariant c4wEnv

/-! ## C6 -/

/-- C6 (confirmed): serving an existing N-byte file (open and fstat succeeding,
i.e. no concurrent modification) emits a Content-Length header equal to N and
body bytes exactly equal to the file content. -/
theorem c6_content_length (env : Env) (p content : List Char)
    (hfile : lookupFile env.fs p = some content)
    (ho : env.openOk = true) (hs : env.fstatOk = true) :
    serve_file env p
      = WriteEvent.headerBlock
          (okFileHeaders (get_content_type (get_file_extension p)) content.length)
        :: (chunks content).map WriteEvent.bodyChunk
    ∧ (("Content-Length: ").toList ++ Nat.toDigits 10 content.length ++ ("\r\n").toList)
        <:+: okFileHeaders (get_content_type (get_file_extension p)) content.length
    ∧ bodyBytes (serve_file env p) = content := by
  refine ⟨serve_file_eq env p content hfile ho hs, contentLength_infix_okFileHeaders _ _, ?_⟩
  rw [serve_file_eq env p content hfile ho hs, bodyBytes_header_body]
  exact chunks_flatten content

/-- C6 witness: the two-byte file ./www/a.txt is served with body "hi". -/
theorem c6_witness :
    serve_file c6wEnv (("./www/a.txt").toList)
      = WriteEvent.headerBlock (okFileHeaders (("text/plain").toList) 2)
        :: [WriteEvent.bodyChunk (("hi").toList)]
    ∧ bodyBytes (serve_file c6wEnv (("./www/a.txt").toList)) = ("hi").toList :=
  ⟨by decide,
   (c6_content_length c6wEnv (("./www/a.txt").toList) (("hi").toList) (by decide) rfl rfl).2.2⟩

/-! ## C10 -/

/-- C10 (confirmed): the content-type table is case-sensitive even though script
classification is not: an extension equal to a table key only up to letter case
falls through to application/octet-stream, and a static file with such an
extension is served with that fallback Content-Type. -/
theorem c10_content_type_case (env : Env) (p content : List Char)
    (hkey : get_file_extension p ∉ contentTypeKeys)
    (_hlower : (get_file_extension p).map Char.toLower ∈ contentTypeKeys)
    (hfile : lookupFile env.fs p = some content)
    (ho : env.openOk = true) (hs : env.fstatOk = true) :
    get_content_type (get_file_extension p) = ("application/octet-stream").toList
    ∧ serve_file env p
      = WriteEvent.headerBlock
          (okFileHeaders (("application/octet-stream").toList) content.length)
        :: (chunks content).map WriteEvent.bodyChunk := by
  have hoct : get_content_type (get_file_extension p) = ("application/octet-stream").toList := by
    unfold get_content_type
    split_ifs with h1 h2 h3 h4 h5 h6 h7 h8
    · exact absurd (show get_file_extension p ∈ contentTypeKeys by
        rcases h1 with h | h <;> (rw [h]; simp [contentTypeKeys])) hkey
    · exact absurd (show get_file_extension p ∈ contentTypeKeys by
        rw [h2]; simp [contentTypeKeys]) hkey
    · exact absurd (show get_file_extension p ∈ contentTypeKeys by
        rw [h3]; simp [contentTypeKeys]) hkey
    · exact absurd (show get_file_extension p ∈ contentTypeKeys by
        rcases h4 with h | h <;> (rw [h]; simp [contentTypeKeys])) hkey
    · exact absurd (show get_file_extension p ∈ contentTypeKeys by
        rw [h5]; simp [contentTypeKeys]) hkey
    · exact absurd (show get_file_extension p ∈ contentTypeKeys by
        rw [h6]; simp [contentTypeKeys]) hkey
    · exact absurd (show get_file_extension p ∈ contentTypeKeys by
        rw [h7]; simp [contentTypeKeys]) hkey
    · exact absurd (show get_file_extension p ∈ contentTypeKeys by
        rw [h8]; simp [contentTypeKeys]) hkey
    · rfl
  have hserve := serve_file_eq env p content hfile ho hs
  rw [hoct] at hserve
  exact ⟨hoct, hserve⟩

/-- C10 witness: the extension HTML (uppercase) is not in the table, its
lowercasing is, and the emitted Content-Type is application/octet-stream. -/
theorem c10_witness :
    get_content_type (get_file_extension (("./www/a.HTML").toList))
      = ("application/octet-stream").toList :=
  (c10_content_type_case c10wEnv (("./www/a.HTML").toList) (("<p>x</p>").toList)
    (by decide) (by decide) (by decide) rfl rfl).1

/-! ## C1 -/

/-- C1 (corrected): a missing or unexecutable interpreter does NOT produce a 500:
the 200 header block is already written before the child's execl failure can be
seen, so the client gets 200 OK with an empty body.  A 500 is produced exactly
when pipe creation or fork fails. -/
theorem c1_amended (env : Env) :
    (env.pipeOk = false ∨ env.forkOk = false →
      serve_php env = [WriteEvent.headerBlock serverErrorResponse])
    ∧ (env.pipeOk = true → env.forkOk = true → env.execOk = false →
      serve_php env = [WriteEvent.headerBlock phpOkHeaders]
      ∧ bodyBytes (serve_php env) = []) := by
  constructor
  · exact serve_php_eq_500 env
  · intro hp hfk he
    have hout : childOut env = [] := by simp [childOut, he]
    have h := serve_php_eq_success env hp hfk
    rw [hout] at h
    rw [show chunks ([] : List Char) = [] from rfl] at h
    simp at h
    exact ⟨h, by rw [h]; rfl⟩

/-- C1 counterexample: the exact scenario of the claim — GET /info.php with the
script present and the interpreter failing to exec — yields a 200 OK response
with empty body; no "500" appears anywhere in what the client receives. -/
theorem c1_counterexample :
    handle_client c1cexEnv = [WriteEvent.headerBlock phpOkHeaders]
    ∧ statusLine200 <+: phpOkHeaders
    ∧ ¬ (("500").toList <:+: phpOkHeaders)
    ∧ bodyBytes (handle_client c1cexEnv) = [] := by
  refine ⟨by decide, by decide, by decide, by decide⟩

/-- C1 witness: the amended theorem instantiated at the failing-exec scenario. -/
theorem c1_witness : serve_php c1wEnv = [WriteEvent.headerBlock phpOkHeaders] :=
  ((c1_amended c1wEnv).2 rfl rfl rfl).1

/-! ## Path lookup is invariant under collapsing doubled slashes -/

theorem normSlashes_cons_cong (a : Char) (l m : List Char)
    (hh : l.head? = m.head?) (hn : normSlashes l = normSlashes m) :
    normSlashes (a :: l) = normSlashes (a :: m) := by
  match l, m with
  | [], [] => rfl
  | [], y :: m' => simp at hh
  | x :: l', [] => simp at hh
  | x :: l', y :: m' =>
    simp at hh
    subst hh
    rw [normSlashes_cons2, normSlashes_cons2, hn]

theorem normSlashes_double (x s : List Char) :
    normSlashes (x ++ '/' :: '/' :: s) = normSlashes (x ++ '/' :: s) := by
  induction x with
  | nil =>
    rw [show ([] : List Char) ++ '/' :: '/' :: s = '/' :: '/' :: s from rfl,
        show ([] : List Char) ++ '/' :: s = '/' :: s from rfl]
    rw [normSlashes_cons2, if_pos ⟨rfl, rfl⟩]
  | cons a x' ih =>
    rw [show (a :: x') ++ '/' :: '/' :: s = a :: (x' ++ '/' :: '/' :: s) from rfl,
        show (a :: x') ++ '/' :: s = a :: (x' ++ '/' :: s) from rfl]
    apply normSlashes_cons_cong
    · cases x' <;> simp
    · exact ih

theorem file_exists_congr (fs : List (List Char × List Char)) (p q : List Char)
    (h : normSlashes p = normSlashes q) : file_exists fs p = file_exists fs q := by
  unfold file_exists lookupFile dirExists
  rw [h]

/-! ## C5 -/

/-- C5 (corrected): for a directory-style RequestPath short enough that the
concatenated index paths fit in the MAX_PATH_LENGTH-byte buffers (length at most
239 = MAX_PATH_LENGTH - 17), the handler checks document-root + path +
index.html first and serves it statically if present, otherwise checks
document-root + path + index.php and runs it if present, otherwise sends 404 —
in exactly that order.  Longer paths are silently truncated by snprintf, so the
checked locations differ from the claim's (see the counterexample). -/
theorem c5_amended (env : Env) (hreq : env.request ≠ [])
    (hsl : (get_request_path env.request).getLast? = some '/')
    (hlen : (get_request_path env.request).length ≤ 239) :
    handle_client env =
      if file_exists env.fs
          ((WWW_DIRECTORY ++ get_request_path env.request) ++ ("index.html").toList) = true
      then serve_file env ((WWW_DIRECTORY ++ get_request_path env.request) ++ ("/index.html").toList)
      else if file_exists env.fs
          ((WWW_DIRECTORY ++ get_request_path env.request) ++ ("index.php").toList) = true
      then serve_php env
      else [WriteEvent.headerBlock notFoundResponse] := by
  set p := get_request_path env.request with hp
  have hne : p ≠ [] := by
    intro h
    rw [h] at hsl
    simp at hsl
  obtain ⟨q, hq⟩ : ∃ q, p = q ++ ['/'] := by
    refine ⟨p.dropLast, ?_⟩
    have hgl : p.getLast hne = '/' :=
      Option.some.inj ((List.getLast?_eq_getLast p hne).symm.trans hsl)
    conv_lhs => rw [← List.dropLast_append_getLast hne]
    rw [hgl]
  have hWlen : WWW_DIRECTORY.length = 5 := by decide
  have ht1 : (WWW_DIRECTORY ++ p).take (MAX_PATH_LENGTH - 1) = WWW_DIRECTORY ++ p := by
    apply List.take_of_length_le
    rw [List.length_append, hWlen]
    show 5 + p.length ≤ 255
    omega
  have ht2 : ((WWW_DIRECTORY ++ p) ++ ("/index.html").toList).take (MAX_PATH_LENGTH - 1)
      = (WWW_DIRECTORY ++ p) ++ ("/index.html").toList := by
    apply List.take_of_length_le
    rw [List.length_append, List.length_append, hWlen]
    show 5 + p.length + 11 ≤ 255
    omega
  have ht3 : ((WWW_DIRECTORY ++ p) ++ ("/index.php").toList).take (MAX_PATH_LENGTH - 1)
      = (WWW_DIRECTORY ++ p) ++ ("/index.php").toList := by
    apply List.take_of_length_le
    rw [List.length_append, List.length_append, hWlen]
    show 5 + p.length + 10 ≤ 255
    omega
  have hex1 : file_exists env.fs ((WWW_DIRECTORY ++ p) ++ ("/index.html").toList)
      = file_exists env.fs ((WWW_DIRECTORY ++ p) ++ ("index.html").toList) := by
    apply file_exists_congr
    rw [hq]
    rw [show (WWW_DIRECTORY ++ (q ++ ['/'])) ++ ("/index.html").toList
          = (WWW_DIRECTORY ++ q) ++ '/' :: '/' :: ("index.html").toList from by
        simp [List.append_assoc]]
    rw [show (WWW_DIRECTORY ++ (q ++ ['/'])) ++ ("index.html").toList
          = (WWW_DIRECTORY ++ q) ++ '/' :: ("index.html").toList from by
        simp [List.append_assoc]]
    exact normSlashes_double _ _
  have hex2 : file_exists env.fs ((WWW_DIRECTORY ++ p) ++ ("/index.php").toList)
      = file_exists env.fs ((WWW_DIRECTORY ++ p) ++ ("index.php").toList) := by
    apply file_exists_congr
    rw [hq]
    rw [show (WWW_DIRECTORY ++ (q ++ ['/'])) ++ ("/index.php").toList
          = (WWW_DIRECTORY ++ q) ++ '/' :: '/' :: ("index.php").toList from by
        simp [List.append_assoc]]
    rw [show (WWW_DIRECTORY ++ (q ++ ['/'])) ++ ("index.php").toList
          = (WWW_DIRECTORY ++ q) ++ '/' :: ("index.php").toList from by
        simp [List.append_assoc]]
    exact normSlashes_double _ _
  simp only [handle_client, if_neg hreq, ← hp]
  rw [ht1, ht2, ht3, if_pos hsl, hex1, hex2]

/-- C5 witness: a short directory request with index.html present is served
statically from document-root + path + index.html. -/
theorem c5_witness :
    handle_client c5wEnv
      = serve_file c5wEnv ((WWW_DIRECTORY ++ ("/dir/").toList) ++ ("/index.html").toList) := by
  have h := c5_amended c5wEnv (by decide) (by decide) (by decide)
  rw [show get_request_path c5wEnv.request = ("/dir/").toList from by decide] at h
  rw [h, if_pos (by decide)]

/-- C5 counterexample: a 255-character directory-style path, one 253-character
component.  The index.html the claim says is checked first exists, yet the
server answers 404: snprintf truncation cuts the directory name itself down to
249 characters, and that truncated name matches nothing — no regular file and,
because the cut falls mid-component, no directory either, so stat fails on the
real filesystem exactly as in the model. -/
theorem c5_counterexample :
    get_request_path c5cexEnv.request = c5cexPath
    ∧ c5cexPath.getLast? = some '/'
    ∧ file_exists c5cexEnv.fs (WWW_DIRECTORY ++ c5cexPath ++ ("index.html").toList) = true
    ∧ handle_client c5cexEnv = [WriteEvent.headerBlock notFoundResponse] := by
  refine ⟨by decide, by decide, by decide, by decide⟩

/-! ## The extension of a path ending in a dotted suffix -/

theorem tw_append (p : Char → Bool) :
    ∀ (a : List Char) (b : Char) (t : List Char), (∀ c ∈ a, p c = true) → p b = false →
      (a ++ b :: t).takeWhile p = a := by
  intro a
  induction a with
  | nil =>
    intro b t _ hb
    rw [show ([] : List Char) ++ b :: t = b :: t from rfl, List.takeWhile_cons, hb]
    simp
  | cons x a' ih =>
    intro b t hmem hb
    have hx : p x = true := hmem x (by simp)
    rw [show (x :: a') ++ b :: t = x :: (a' ++ b :: t) from rfl, List.takeWhile_cons, hx]
    simp [ih b t (fun c hc => hmem c (by simp [hc])) hb]

theorem get_file_extension_append (l s : List Char) (hl : l ≠ []) (hs : '.' ∉ s) :
    get_file_extension (l ++ '.' :: s) = s := by
  have hp1 : ∀ c ∈ s.reverse, notDot c = true := by
    intro c hc
    simp at hc
    have hcd : c ≠ '.' := fun h => hs (h ▸ hc)
    simp [notDot, hcd]
  have hp2 : notDot '.' = false := by decide
  have htw : ((l ++ '.' :: s).reverse).takeWhile notDot = s.reverse := by
    rw [show (l ++ '.' :: s).reverse = s.reverse ++ '.' :: l.reverse from by simp]
    exact tw_append _ s.reverse '.' l.reverse hp1 hp2
  have hlpos : 0 < l.length := List.length_pos.mpr hl
  have hlen : (l ++ '.' :: s).length = l.length + 1 + s.length := by
    simp
    omega
  simp only [get_file_extension]
  rw [htw, List.length_reverse]
  rw [if_neg (by rw [hlen]; omega), if_neg (by rw [hlen]; omega)]
  simp

/-! ## C8 -/

/-- C8 (corrected): for a non-directory request path whose (buffer-truncated)
filesystem path exists, dispatch to the script executor is decided exactly by a
case-insensitive comparison of the file extension with "php"; a path ending in
".PHP" is dispatched to the script executor provided it is short enough
(at most MAX_PATH_LENGTH - 6 = 250 characters) that snprintf truncation does not
cut the extension off.  For longer paths the truncated location is what is
checked and classified (see the counterexample). -/
theorem c8_script_classification (env : Env) (hreq : env.request ≠ [])
    (hsl : (get_request_path env.request).getLast? ≠ some '/')
    (hex : file_exists env.fs
      ((WWW_DIRECTORY ++ get_request_path env.request).take (MAX_PATH_LENGTH - 1)) = true) :
    (handle_client env =
      if strcasecmpEq
          (get_file_extension
            ((WWW_DIRECTORY ++ get_request_path env.request).take (MAX_PATH_LENGTH - 1)))
          (("php").toList) = true
      then serve_php env
      else serve_file env ((WWW_DIRECTORY ++ get_request_path env.request).take (MAX_PATH_LENGTH - 1)))
    ∧ ((".PHP").toList <:+ get_request_path env.request →
        (get_request_path env.request).length ≤ MAX_PATH_LENGTH - 6 →
        handle_client env = serve_php env) := by
  set p := get_request_path env.request with hp
  have hmain : handle_client env =
      if strcasecmpEq (get_file_extension ((WWW_DIRECTORY ++ p).take (MAX_PATH_LENGTH - 1)))
          (("php").toList) = true
      then serve_php env
      else serve_file env ((WWW_DIRECTORY ++ p).take (MAX_PATH_LENGTH - 1)) := by
    simp only [handle_client, if_neg hreq, ← hp]
    rw [if_neg hsl, if_pos hex]
  refine ⟨hmain, fun hsuf hlen => ?_⟩
  obtain ⟨q, hq⟩ := hsuf
  have hlen' : p.length ≤ 250 := hlen
  have ht : (WWW_DIRECTORY ++ p).take (MAX_PATH_LENGTH - 1) = WWW_DIRECTORY ++ p := by
    apply List.take_of_length_le
    rw [List.length_append, show WWW_DIRECTORY.length = 5 from by decide]
    show 5 + p.length ≤ 255
    omega
  rw [hmain, ht]
  have hWq : WWW_DIRECTORY ++ p = (WWW_DIRECTORY ++ q) ++ '.' :: ("PHP").toList := by
    rw [← hq, show (".PHP").toList = '.' :: ("PHP").toList from rfl, ← List.append_assoc]
  rw [hWq, get_file_extension_append _ _ ?_ ?_]
  · rw [if_pos (by decide)]
  · intro hcon
    have := congrArg List.length hcon
    simp [WWW_DIRECTORY] at this
  · decide

/-- C8 witness: GET /page.PHP with the file present runs the script executor. -/
theorem c8_witness : handle_client c8wEnv = serve_php c8wEnv :=
  (c8_script_classification c8wEnv (by decide) (by decide) (by decide)).2 (by decide) (by decide)

/-- C8 counterexample: a 255-character path ending in ".PHP" whose file (at
document root + full path) exists is answered with 404, not dispatched to the
script executor: the path the server actually checks lost its tail to snprintf
truncation. -/
theorem c8_counterexample :
    (".PHP").toList <:+ c8cexPath
    ∧ get_request_path c8cexEnv.request = c8cexPath
    ∧ file_exists c8cexEnv.fs (WWW_DIRECTORY ++ c8cexPath) = true
    ∧ handle_client c8cexEnv = [WriteEvent.headerBlock notFoundResponse] := by
  refine ⟨by decide, by decide, by decide, by decide⟩

/-! ## C9 -/

/-- C9 (confirmed): whenever pipe creation and fork succeed, the 200 header
block is written to the client (at position 1 of the action trace, right after
the parent closes the pipe's write end) strictly before every read from the
pipe, and the child is reaped by waitpid after every read (the loop has reached
end-of-stream) and before serve_php returns. -/
theorem c9_ordering (env : Env) (hp : env.pipeOk = true) (hf : env.forkOk = true) :
    (serve_php_trace env)[1]? = some (PhpEvent.sendHeaders phpOkHeaders)
    ∧ (∀ (j : Nat) (b : List Char),
        (serve_php_trace env)[j]? = some (PhpEvent.readChunk b) → 1 < j)
    ∧ ∃ k : Nat, (serve_php_trace env)[k]? = some (PhpEvent.reapChild (childExitStatus env))
        ∧ ∀ (j : Nat) (b : List Char),
            (serve_php_trace env)[j]? = some (PhpEvent.readChunk b) → j < k := by
  have htr : serve_php_trace env
      = PhpEvent.closeWriteEnd
        :: PhpEvent.sendHeaders phpOkHeaders
        :: ((chunks (childOut env)).flatMap (fun c => [PhpEvent.readChunk c, PhpEvent.sendBody c])
            ++ ([PhpEvent.closeReadEnd, PhpEvent.reapChild (childExitStatus env)]
                ++ (if childExitStatus env = 0 then []
                    else [PhpEvent.logNonZeroExit (childExitStatus env)]))) := by
    simp [serve_php_trace, hp, hf]
  set mid := (chunks (childOut env)).flatMap
    (fun c => [PhpEvent.readChunk c, PhpEvent.sendBody c]) with hmid
  set tl := (if childExitStatus env = 0 then ([] : List PhpEvent)
             else [PhpEvent.logNonZeroExit (childExitStatus env)]) with htl
  refine ⟨?_, ?_, ?_⟩
  · rw [htr]
    simp
  · intro j b hj
    rw [htr] at hj
    match j with
    | 0 => simp at hj
    | 1 => simp at hj
    | j + 2 => omega
  · refine ⟨mid.length + 3, ?_, ?_⟩
    · rw [htr]
      rw [show mid.length + 3 = mid.length + 1 + 1 + 1 from by omega]
      rw [List.getElem?_cons_succ, List.getElem?_cons_succ]
      rw [List.getElem?_append_right (by omega)]
      rw [show mid.length + 1 - mid.length = 1 from by omega]
      rw [show [PhpEvent.closeReadEnd, PhpEvent.reapChild (childExitStatus env)] ++ tl
            = PhpEvent.closeReadEnd :: PhpEvent.reapChild (childExitStatus env) :: tl from rfl]
      simp
    · intro j b hj
      rw [htr] at hj
      match j with
      | 0 => simp at hj
      | 1 => simp at hj
      | j2 + 2 =>
        simp only [List.getElem?_cons_succ] at hj
        by_contra hcon
        push_neg at hcon
        have hge : mid.length ≤ j2 := by omega
        rw [List.getElem?_append_right hge] at hj
        obtain ⟨m, hm⟩ : ∃ m, j2 - mid.length = m + 1 := ⟨j2 - mid.length - 1, by omega⟩
        rw [hm] at hj
        rw [show [PhpEvent.closeReadEnd, PhpEvent.reapChild (childExitStatus env)] ++ tl
              = PhpEvent.closeReadEnd :: PhpEvent.reapChild (childExitStatus env) :: tl
            from rfl] at hj
        rw [List.getElem?_cons_succ] at hj
        match m, hj with
        | 0, hj => simp at hj
        | m' + 1, hj =>
          rw [List.getElem?_cons_succ] at hj
          by_cases hz : childExitStatus env = 0
          · rw [htl] at hj
            simp [hz] at hj
          · rw [htl] at hj
            simp only [hz, if_neg] at hj
            match m', hj with
            | 0, hj => simp at hj
            | m'' + 1, hj => simp at hj

/-- C9 witness: the ordering applied to a successful run with output "hello". -/
theorem c9_witness :
    (serve_php_trace c9wEnv)[1]? = some (PhpEvent.sendHeaders phpOkHeaders) :=
  (c9_ordering c9wEnv rfl rfl).1
